import Mathlib

/-!
Verification development for the reasoned multi-step research orchestrator
(`src/lib/ai/tools/reason-search.ts`).  The orchestrator's pure control flow is
shallowly embedded: the external generative-model calls (`generateObject`) and
the three search adapters (`webSearchStep`, `academicSearchStep`, `xSearchStep`,
which live outside this repository's core and are specified only at their
interfaces) are modelled as oracle parameters, and the orchestrator's own
decisions (step-id generation, scheduling, result accumulation, progress
events) are translated from the source.  JavaScript numbers occurring in the
schemas (`priority`, `severity`, `importance`, `confidence`) are modelled as
rationals; decimal rendering of counters in template literals is modelled by
`natStr`/`intStr` below.
-/

namespace ReasonSearch

/-- Decimal digits of `n` (most significant first), with explicit fuel so that
the definition is structural.  `natDigsAux fuel n` is correct when `n ≤ fuel`. -/
def natDigsAux : Nat → Nat → List Char
  | 0, _ => []
  | _ + 1, 0 => []
  | fuel + 1, n + 1 => natDigsAux fuel ((n + 1) / 10) ++ [Nat.digitChar ((n + 1) % 10)]

/-- Decimal rendering of a natural number, as produced by a JavaScript template
literal for a non-negative integer. -/
def natStr (n : Nat) : String :=
  if n = 0 then "0" else ⟨natDigsAux n n⟩

/-- Decimal rendering of an integer, as produced by a JavaScript template
literal (a leading minus sign for negative values). -/
def intStr (i : Int) : String :=
  if i < 0 then "-" ++ natStr i.natAbs else natStr i.natAbs

/-- Search depth parameter of the tool (`depth: 'basic' | 'advanced'`). -/
inductive Depth where
  | basic
  | advanced
deriving DecidableEq

/-- The `source` enum of a planned search query. -/
inductive Source where
  | web
  | academic
  | x
  | all
deriving DecidableEq

/-- One entry of `researchPlan.search_queries`. -/
structure SearchQuery where
  query : String
  rationale : String
  source : Source
  priority : ℚ
deriving DecidableEq

/-- One entry of `researchPlan.required_analyses`. -/
structure RequiredAnalysis where
  type : String
  description : String
  importance : ℚ
deriving DecidableEq

/-- The object produced by the plan-generation `generateObject` call. -/
structure ResearchPlan where
  search_queries : List SearchQuery
  required_analyses : List RequiredAnalysis
deriving DecidableEq

/-- The zod schema constraint on one search query of the research plan:
`priority: z.number().min(1).max(5)`. -/
def searchQuerySchemaOk (q : SearchQuery) : Prop :=
  1 ≤ q.priority ∧ q.priority ≤ 5

/-- The zod schema constraint on one required analysis:
`importance: z.number().min(1).max(5)`. -/
def requiredAnalysisSchemaOk (a : RequiredAnalysis) : Prop :=
  1 ≤ a.importance ∧ a.importance ≤ 5

/-- The zod schema of the plan-generation call: at most 12 search queries, at
most 8 analyses, and the numeric bounds above on every element. -/
def researchPlanSchemaOk (p : ResearchPlan) : Prop :=
  p.search_queries.length ≤ 12
    ∧ (∀ q ∈ p.search_queries, searchQuerySchemaOk q)
    ∧ p.required_analyses.length ≤ 8
    ∧ (∀ a ∈ p.required_analyses, requiredAnalysisSchemaOk a)

instance searchQuerySchemaOkDec (q : SearchQuery) : Decidable (searchQuerySchemaOk q) := by
  unfold searchQuerySchemaOk; infer_instance

instance requiredAnalysisSchemaOkDec (a : RequiredAnalysis) : Decidable (requiredAnalysisSchemaOk a) := by
  unfold requiredAnalysisSchemaOk; infer_instance

instance researchPlanSchemaOkDec (p : ResearchPlan) : Decidable (researchPlanSchemaOk p) := by
  unfold researchPlanSchemaOk; infer_instance

/-- The kind of a generated search step (`type` field: `'web' | 'academic' | 'x'`). -/
inductive SearchKind where
  | web
  | academic
  | x
deriving DecidableEq

/-- One element of `stepIds.searchSteps` as produced by `generateStepIds`. -/
structure SearchStep where
  id : String
  type : SearchKind
  query : SearchQuery
deriving DecidableEq

/-- One element of `stepIds.analysisSteps` as produced by `generateStepIds`. -/
structure AnalysisStep where
  id : String
  type : String
  analysis : RequiredAnalysis
deriving DecidableEq

/-- The record returned by `generateStepIds`. -/
structure StepIds where
  planId : String
  searchSteps : List SearchStep
  analysisSteps : List AnalysisStep
deriving DecidableEq

/-- The search steps contributed by one indexed plan query, following the
`flatMap` body of `generateStepIds`: a `source: 'all'` query fans out into a
web, an academic and an x step sharing the origin index; an `x` query yields
one x step; otherwise `searchType` is `academic` for an academic query and
`web` for everything else. -/
def searchStepsOfQuery : Nat × SearchQuery → List SearchStep
  | (index, query) =>
    match query.source with
    | .all =>
      [ ⟨"search-web-" ++ natStr index, .web, query⟩,
        ⟨"search-academic-" ++ natStr index, .academic, query⟩,
        ⟨"search-x-" ++ natStr index, .x, query⟩ ]
    | .x => [⟨"search-x-" ++ natStr index, .x, query⟩]
    | .academic => [⟨"search-academic-" ++ natStr index, .academic, query⟩]
    | .web => [⟨"search-web-" ++ natStr index, .web, query⟩]

/-- One analysis step of the plan (`analysis-<index>`). -/
def analysisStepOfEnum : Nat × RequiredAnalysis → AnalysisStep
  | (index, analysis) => ⟨"analysis-" ++ natStr index, "analysis", analysis⟩

/-- The source's `generateStepIds`: ids for all steps based on the plan. -/
def generateStepIds (plan : ResearchPlan) : StepIds :=
  { planId := "research-plan"
    searchSteps := plan.search_queries.enum.flatMap searchStepsOfQuery
    analysisSteps := plan.required_analyses.enum.map analysisStepOfEnum }

/-- The number of search steps a single plan query contributes (3 on `all`
fan-out, 1 otherwise). -/
def queryStepWeight (q : SearchQuery) : Nat :=
  if q.source = Source.all then 3 else 1

/-- The search-step count of a plan as described by the spec. -/
def countSearchSteps (plan : ResearchPlan) : Nat :=
  (plan.search_queries.map queryStepWeight).sum

/-- The analysis-step count of a plan. -/
def countAnalysisSteps (plan : ResearchPlan) : Nat :=
  plan.required_analyses.length

theorem searchStepsOfQuery_length (p : Nat × SearchQuery) :
    (searchStepsOfQuery p).length = queryStepWeight p.2 := by
  obtain ⟨i, q⟩ := p
  cases h : q.source <;> simp [searchStepsOfQuery, queryStepWeight, h]

theorem searchSteps_length_enumFrom (qs : List SearchQuery) :
    ∀ n, ((qs.enumFrom n).flatMap searchStepsOfQuery).length = (qs.map queryStepWeight).sum := by
  induction qs with
  | nil => intro n; simp
  | cons q qs ih =>
    intro n
    simp [List.enumFrom, searchStepsOfQuery_length, ih]

theorem generateStepIds_searchSteps_length (plan : ResearchPlan) :
    (generateStepIds plan).searchSteps.length = countSearchSteps plan := by
  simpa [generateStepIds, List.enum, countSearchSteps] using
    searchSteps_length_enumFrom plan.search_queries 0

theorem generateStepIds_analysisSteps_length (plan : ResearchPlan) :
    (generateStepIds plan).analysisSteps.length = countAnalysisSteps plan := by
  simp [generateStepIds, countAnalysisSteps]

/-- A result item as returned by the web and x search adapters, with the
fields the orchestrator reads (`url`, and the optional `title`, `author`,
`text`). -/
structure RawItem where
  url : String
  title : Option String
  author : Option String
  text : Option String
deriving DecidableEq

/-- A result item as returned by the academic search adapter, with the fields
the orchestrator reads (`title`, `url`, `summary`, all possibly absent). -/
structure AcademicItem where
  title : Option String
  url : Option String
  summary : Option String
deriving DecidableEq

/-- The record the Deepening Pass builds from an academic item
(`{ source: 'academic', title, url, content }`). -/
structure MappedItem where
  source : String
  title : String
  url : String
  content : String
deriving DecidableEq

/-- The record the Deepening Pass builds from an x item that carries a valid
tweet URL. -/
structure TweetItem where
  source : String
  title : String
  url : String
  content : String
  tweetId : String
deriving DecidableEq

/-- The heterogeneous `results` payload of an accumulated SearchResult entry:
the initial pass pushes the adapters' raw item lists; the Deepening Pass maps
academic items and processes x items into tweet records. -/
inductive Payload where
  | raw (items : List RawItem)
  | academicRaw (items : List AcademicItem)
  | academicMapped (items : List MappedItem)
  | tweets (items : List TweetItem)
deriving DecidableEq

/-- One entry of the accumulated `searchResults` sequence. -/
structure SearchResultEntry where
  type : SearchKind
  query : SearchQuery
  results : Payload
deriving DecidableEq

/-- The uniform return shape of a search adapter: a result list and an
optional error marker. -/
structure StepOutcome (α : Type) where
  error : Option String
  results : List α
deriving DecidableEq

/-- JavaScript truthiness of the adapter's `error` field: `undefined` and the
empty string are falsy, every other string is truthy. -/
def errTruthy : Option String → Bool
  | none => false
  | some s => decide (s ≠ "")

/-- JavaScript `a || b` on an optional string `a` with default `b`: an absent
or empty string falls through to the default. -/
def jsOr (a : Option String) (b : String) : String :=
  match a with
  | none => b
  | some s => if s = "" then b else s

/-- Arguments of a `webSearchStep` call as made by the orchestrator. -/
structure WebSearchArgs where
  query : String
  provider : String
  maxResults : ℚ
  searchDepth : Depth
  stepId : String
deriving DecidableEq

/-- Arguments of an `academicSearchStep` call as made by the orchestrator. -/
structure AcademicSearchArgs where
  query : String
  maxResults : ℚ
  stepId : String
deriving DecidableEq

/-- Arguments of an `xSearchStep` call as made by the orchestrator. -/
structure XSearchArgs where
  query : String
  type : String
  maxResults : ℚ
  stepId : String
deriving DecidableEq

/-- The three search adapters, modelled as oracles: they live outside the
orchestrator (`steps/web-search`, `steps/academic-search`, `steps/x-search`)
and are specified only by their call/return interface. -/
structure Adapters where
  webSearchStep : WebSearchArgs → StepOutcome RawItem
  academicSearchStep : AcademicSearchArgs → StepOutcome AcademicItem
  xSearchStep : XSearchArgs → StepOutcome RawItem

/-- ASCII word character, the `\w` class of the tweet-URL pattern. -/
def isWordChar (c : Char) : Bool :=
  c.isAlpha || c.isDigit || c = '_'

/-- Strip an expected literal character sequence from the front of a list. -/
def dropLit : List Char → List Char → Option (List Char)
  | [], l => some l
  | _ :: _, [] => none
  | c :: p, d :: l => if c = d then dropLit p l else none

/-- Attempt to match `(?:twitter\.com|x\.com)\/\w+\/status\/(\d+)` at the head
of the character list, returning the captured digit group. -/
def tryTweetMatch (l : List Char) : Option String :=
  match (dropLit "twitter.com/".data l).orElse (fun _ => dropLit "x.com/".data l) with
  | none => none
  | some rest =>
    let w := rest.span isWordChar
    if w.1.isEmpty then none
    else
      match dropLit "status/".data w.2 with
      | none => none
      | some rest2 =>
        let d := rest2.span Char.isDigit
        if d.1.isEmpty then none else some ⟨d.1⟩

/-- Scan for the first match of the tweet-URL pattern (unanchored search). -/
def scanTweet : List Char → Option String
  | [] => none
  | c :: t => (tryTweetMatch (c :: t)).orElse (fun _ => scanTweet t)

/-- The source's `extractTweetId`: the digit group of the first tweet-URL
match in the string, if any. -/
def extractTweetId (url : String) : Option String :=
  scanTweet url.data

/-- The Deepening Pass's processing of x results: items whose URL does not
yield a tweet id are dropped; the rest become tweet records. -/
def processTweets (items : List RawItem) : List TweetItem :=
  items.filterMap fun r =>
    (extractTweetId r.url).map fun tid =>
      ⟨"x", jsOr r.title (jsOr r.author "Tweet"), r.url, jsOr r.text "", tid⟩

/-- The mapping the Deepening Pass applies to each academic item. -/
def mapAcademic (r : AcademicItem) : MappedItem :=
  ⟨"academic", r.title.getD "", r.url.getD "", r.summary.getD ""⟩

/-- The mutable state threaded through the search loops: the accumulated
`searchResults` log, the `completedSteps` counter, the `searchIndex` counter,
and (as an observation of the adapter calls) the sequence of `stepId` values
passed to adapters. -/
structure SearchState where
  searchResults : List SearchResultEntry
  completedSteps : Nat
  searchIndex : Nat
  trace : List String
deriving DecidableEq

/-- The `webSearchStep` arguments for an initial-pass web step
(`maxResults: Math.min(6 - priority, 10)`). -/
def webArgsOf (depth : Depth) (step : SearchStep) : WebSearchArgs :=
  ⟨step.query.query, "tavily", min (6 - step.query.priority) 10, depth, step.id⟩

/-- The `academicSearchStep` arguments for an initial-pass academic step
(`maxResults: Math.min(6 - priority, 5)`). -/
def academicArgsOf (step : SearchStep) : AcademicSearchArgs :=
  ⟨step.query.query, min (6 - step.query.priority) 5, step.id⟩

/-- The `xSearchStep` arguments for an initial-pass x step
(`maxResults: priority`). -/
def xArgsOf (step : SearchStep) : XSearchArgs :=
  ⟨step.query.query, "keyword", step.query.priority, step.id⟩

/-- The SearchResult entry an initial-pass step pushes when its adapter does
not report an error, `none` when the adapter's `error` field is truthy. -/
def initialEntry (depth : Depth) (a : Adapters) (step : SearchStep) :
    Option SearchResultEntry :=
  match step.type with
  | .web =>
    let r := a.webSearchStep (webArgsOf depth step)
    if errTruthy r.error then none else some ⟨.web, step.query, .raw r.results⟩
  | .academic =>
    let r := a.academicSearchStep (academicArgsOf step)
    if errTruthy r.error then none else some ⟨.academic, step.query, .academicRaw r.results⟩
  | .x =>
    let r := a.xSearchStep (xArgsOf step)
    if errTruthy r.error then none else some ⟨.x, step.query, .raw r.results⟩

/-- One iteration of the initial search loop: call the matching adapter; on
success append the entry and increment `completedSteps`, on a truthy error do
neither; `searchIndex` is incremented at the end of the iteration either way. -/
def execInitialStep (depth : Depth) (a : Adapters) (st : SearchState)
    (step : SearchStep) : SearchState :=
  let st' :=
    match initialEntry depth a step with
    | some e =>
      { st with
        searchResults := st.searchResults ++ [e]
        completedSteps := st.completedSteps + 1
        trace := st.trace ++ [step.id] }
    | none => { st with trace := st.trace ++ [step.id] }
  { st' with searchIndex := st'.searchIndex + 1 }

/-- The whole initial search loop. -/
def initialSearchLoop (depth : Depth) (a : Adapters) (steps : List SearchStep)
    (st : SearchState) : SearchState :=
  steps.foldl (execInitialStep depth a) st

/-- One finding of an analysis or synthesis annotation
(`{ insight, evidence, confidence }`). -/
structure Finding where
  insight : String
  evidence : List String
  confidence : ℚ
deriving DecidableEq

/-- The object produced by one per-analysis `generateObject` call. -/
structure AnalysisObject where
  findings : List Finding
  implications : List String
  limitations : List String
deriving DecidableEq

/-- One limitation of the gap analysis (`severity` bounded 2-10 by schema). -/
structure Limitation where
  type : String
  description : String
  severity : ℚ
  potential_solutions : List String
deriving DecidableEq

/-- One knowledge gap of the gap analysis. -/
structure KnowledgeGap where
  topic : String
  reason : String
  additional_queries : List String
deriving DecidableEq

/-- One recommended follow-up of the gap analysis. -/
structure Followup where
  action : String
  rationale : String
  priority : ℚ
deriving DecidableEq

/-- The object produced by the gap-analysis `generateObject` call. -/
structure GapAnalysis where
  limitations : List Limitation
  knowledge_gaps : List KnowledgeGap
  recommended_followup : List Followup
deriving DecidableEq

/-- One key finding of the final synthesis. -/
structure KeyFinding where
  finding : String
  confidence : ℚ
  supporting_evidence : List String
deriving DecidableEq

/-- The object produced by the final-synthesis `generateObject` call. -/
structure Synthesis where
  key_findings : List KeyFinding
  remaining_uncertainties : List String
deriving DecidableEq

/-- The rotation of single source types used by the Deepening Pass
(`sourceTypes` of the source, whose last element `all` is never selected
because the index is reduced modulo `sourceTypes.length - 1`). -/
def sourceTypes : List Source :=
  [Source.web, Source.academic, Source.x, Source.all]

/-- The source assigned to the gap query at position `idx` within its gap:
`all` for the first query, then `sourceTypes[idx % (sourceTypes.length - 1)]`. -/
def gapQuerySource (idx : Nat) : Source :=
  if idx = 0 then Source.all
  else
    sourceTypes.get
      ⟨idx % (sourceTypes.length - 1),
        Nat.lt_of_lt_of_le (Nat.mod_lt _ (by decide)) (by decide)⟩

/-- The source's `additionalQueries`: each knowledge gap's
`additional_queries` become plan-query records with the gap's reason as
rationale, the rotated source, and priority 3. -/
def additionalQueries (gaps : List KnowledgeGap) : List SearchQuery :=
  gaps.flatMap fun gap =>
    gap.additional_queries.enum.map fun p =>
      ⟨p.2, gap.reason, gapQuerySource p.1, 3⟩

/-- One iteration of the gap search loop (lines 403-529 of the source): a
fresh `gapSearchId` is drawn from the continuing `searchIndex` counter, then
the web, academic and x branches run according to the query's source, each
appending its entry unconditionally (no error check). -/
def execGapQuery (depth : Depth) (a : Adapters) (st : SearchState)
    (q : SearchQuery) : SearchState :=
  let gapSearchId := "gap-search-" ++ natStr st.searchIndex
  let st1 : SearchState := { st with searchIndex := st.searchIndex + 1 }
  let st2 : SearchState :=
    if q.source = Source.web ∨ q.source = Source.all then
      let stepId :=
        if q.source = Source.all then
          "gap-search-web-" ++ intStr ((st1.searchIndex : Int) - 3)
        else gapSearchId
      let r := a.webSearchStep ⟨q.query, "tavily", 5, depth, stepId⟩
      { st1 with
        searchResults :=
          st1.searchResults ++ [⟨.web, ⟨q.query, q.rationale, .web, q.priority⟩, .raw r.results⟩]
        trace := st1.trace ++ [stepId] }
    else st1
  let st3 : SearchState :=
    if q.source = Source.academic ∨ q.source = Source.all then
      let pr :=
        if q.source = Source.all then
          ("gap-search-academic-" ++ natStr st2.searchIndex, st2.searchIndex + 1)
        else (gapSearchId, st2.searchIndex)
      let r := a.academicSearchStep ⟨q.query, 3, pr.1⟩
      { st2 with
        searchIndex := pr.2
        searchResults :=
          st2.searchResults ++
            [⟨.academic, ⟨q.query, q.rationale, .academic, q.priority⟩,
              .academicMapped (r.results.map mapAcademic)⟩]
        trace := st2.trace ++ [pr.1] }
    else st2
  if q.source = Source.x ∨ q.source = Source.all then
    let pr :=
      if q.source = Source.all then
        ("gap-search-x-" ++ natStr st3.searchIndex, st3.searchIndex + 1)
      else (gapSearchId, st3.searchIndex)
    let r := a.xSearchStep ⟨q.query, "keyword", 5, pr.1⟩
    { st3 with
      searchIndex := pr.2
      searchResults :=
        st3.searchResults ++
          [⟨.x, ⟨q.query, q.rationale, .x, q.priority⟩, .tweets (processTweets r.results)⟩]
      trace := st3.trace ++ [pr.1] }
  else st3

/-- The whole gap search loop. -/
def gapSearchLoop (depth : Depth) (a : Adapters) (qs : List SearchQuery)
    (st : SearchState) : SearchState :=
  qs.foldl (execGapQuery depth a) st

/-- A progress event written by the orchestrator to the data stream
(`writeMessageAnnotation` payloads of type `research_update`).  The data
fields relevant to the verified properties are modelled; presentation-only
fields (`title`, `message`, wall-clock `timestamp`) are not. -/
structure ProgressEvent where
  id : String
  type : String
  status : String
  overwrite : Bool := false
  completedSteps : Option Nat := none
  totalSteps : Option Nat := none
  plan : Option ResearchPlan := none
  findings : Option (List Finding) := none
  gaps : Option (List KnowledgeGap) := none
  recommendations : Option (List Followup) := none
  uncertainties : Option (List String) := none
  analysisType : Option String := none
  isComplete : Option Bool := none
deriving DecidableEq

/-- The initial plan status event (id `research-plan-initial`). -/
def planRunningEvent : ProgressEvent :=
  { id := "research-plan-initial", type := "plan", status := "running", overwrite := true }

/-- The plan-completion event: carries the plan and the computed
`totalSteps`. -/
def planCompletedEvent (plan : ResearchPlan) (totalSteps : Nat) : ProgressEvent :=
  { id := "research-plan", type := "plan", status := "completed",
    plan := some plan, totalSteps := some totalSteps, overwrite := true }

/-- The running/completed event pair of one analysis step. -/
def analysisEventsOf (step : AnalysisStep) (result : AnalysisObject) :
    List ProgressEvent :=
  [ { id := step.id, type := "analysis", status := "running",
      analysisType := some step.analysis.type },
    { id := step.id, type := "analysis", status := "completed",
      analysisType := some step.analysis.type,
      findings := some result.findings, overwrite := true } ]

/-- The remapping of limitation severity into a confidence-like score used by
the gap-analysis completed event: `confidence = (6 - severity) / 5`. -/
def limitationFinding (l : Limitation) : Finding :=
  ⟨l.description, l.potential_solutions, (6 - l.severity) / 5⟩

/-- The gap-analysis running event. -/
def gapRunningEvent : ProgressEvent :=
  { id := "gap-analysis", type := "analysis", status := "running",
    analysisType := some "gaps" }

/-- The gap-analysis completed event: remapped findings, the gaps and
recommendations, and the recomputed step counters
(`completedSteps + 1` over `totalSteps + (advanced ? 2 : 1)`). -/
def gapCompletedEvent (depth : Depth) (gap : GapAnalysis) (completedSteps totalSteps : Nat) :
    ProgressEvent :=
  { id := "gap-analysis", type := "analysis", status := "completed",
    analysisType := some "gaps",
    findings := some (gap.limitations.map limitationFinding),
    gaps := some gap.knowledge_gaps,
    recommendations := some gap.recommended_followup,
    overwrite := true,
    completedSteps := some (completedSteps + 1),
    totalSteps := some (totalSteps + (if depth = Depth.advanced then 2 else 1)) }

/-- The final-synthesis running event. -/
def synthesisRunningEvent : ProgressEvent :=
  { id := "final-synthesis", type := "analysis", status := "running",
    analysisType := some "synthesis" }

/-- The final-synthesis completed event: its `completedSteps` is derived from
the recomputed total (`totalSteps + (advanced ? 2 : 1) - 1`), not from the
actual completion counter. -/
def synthesisCompletedEvent (depth : Depth) (syn : Synthesis) (totalSteps : Nat) :
    ProgressEvent :=
  { id := "final-synthesis", type := "analysis", status := "completed",
    analysisType := some "synthesis",
    findings := some (syn.key_findings.map fun f =>
      ⟨f.finding, f.supporting_evidence, f.confidence⟩),
    uncertainties := some syn.remaining_uncertainties,
    overwrite := true,
    completedSteps := some (totalSteps + (if depth = Depth.advanced then 2 else 1) - 1),
    totalSteps := some (totalSteps + (if depth = Depth.advanced then 2 else 1)) }

/-- The final progress event: both counters are set to the recomputed total
(`totalSteps + (advanced ? 2 : 1)`). -/
def finalProgressEvent (depth : Depth) (totalSteps : Nat) : ProgressEvent :=
  { id := "research-progress", type := "progress", status := "completed",
    completedSteps := some (totalSteps + (if depth = Depth.advanced then 2 else 1)),
    totalSteps := some (totalSteps + (if depth = Depth.advanced then 2 else 1)),
    isComplete := some true, overwrite := true }

/-- The observable outcome of one research run: the ordered progress events,
the accumulated evidence log, the internal counters, the adapter-call trace,
and the returned synthesis. -/
structure RunOutput where
  events : List ProgressEvent
  searchResults : List SearchResultEntry
  completedSteps : Nat
  totalSteps : Nat
  trace : List String
  synthesis : Option Synthesis
deriving DecidableEq

/-- The `execute` body of the reason-search tool, with every external
generative call abstracted as an oracle: `plan` is the plan-generation output,
`analysisO` the per-analysis generation (a function of the analysis spec and
the accumulated results serialized into its prompt), `gapO` the gap analysis
(a function of the results and the analysis metadata in its prompt), `synthO`
the final synthesis (a function of the results, the gap analysis and the
additional queries in its prompt).  The source's `analysisIndex` counter,
incremented in the analysis loop but never read, is not modelled. -/
def runResearch (depth : Depth) (plan : ResearchPlan) (a : Adapters)
    (analysisO : RequiredAnalysis → List SearchResultEntry → AnalysisObject)
    (gapO : List SearchResultEntry → List AnalysisStep → GapAnalysis)
    (synthO : List SearchResultEntry → GapAnalysis → List SearchQuery → Synthesis) :
    RunOutput :=
  let stepIds := generateStepIds plan
  let totalSteps := stepIds.searchSteps.length + stepIds.analysisSteps.length
  let st0 : SearchState := ⟨[], 0, 0, []⟩
  let st := initialSearchLoop depth a stepIds.searchSteps st0
  let analysisEvents := stepIds.analysisSteps.flatMap fun step =>
    analysisEventsOf step (analysisO step.analysis st.searchResults)
  let gap := gapO st.searchResults stepIds.analysisSteps
  let preEvents :=
    planRunningEvent :: planCompletedEvent plan totalSteps ::
      analysisEvents ++
        [gapRunningEvent, gapCompletedEvent depth gap st.completedSteps totalSteps]
  if depth = Depth.advanced ∧ 0 < gap.knowledge_gaps.length then
    let aq := additionalQueries gap.knowledge_gaps
    let st2 := gapSearchLoop depth a aq st
    let syn := synthO st2.searchResults gap aq
    { events :=
        preEvents ++
          [synthesisRunningEvent, synthesisCompletedEvent depth syn totalSteps,
            finalProgressEvent depth totalSteps]
      searchResults := st2.searchResults
      completedSteps := st2.completedSteps
      totalSteps := totalSteps
      trace := st2.trace
      synthesis := some syn }
  else
    { events := preEvents ++ [finalProgressEvent depth totalSteps]
      searchResults := st.searchResults
      completedSteps := st.completedSteps
      totalSteps := totalSteps
      trace := st.trace
      synthesis := none }

/-- The entries the gap loop appends for a single gap query arriving with
`searchIndex = k`: exactly one entry for a single-source query, three for an
`all` query, in every case regardless of the adapters' error fields. -/
def gapEntriesOf (depth : Depth) (a : Adapters) (q : SearchQuery) (k : Nat) :
    List SearchResultEntry :=
  match q.source with
  | .web =>
    [⟨.web, ⟨q.query, q.rationale, .web, q.priority⟩,
      .raw (a.webSearchStep ⟨q.query, "tavily", 5, depth, "gap-search-" ++ natStr k⟩).results⟩]
  | .academic =>
    [⟨.academic, ⟨q.query, q.rationale, .academic, q.priority⟩,
      .academicMapped
        ((a.academicSearchStep ⟨q.query, 3, "gap-search-" ++ natStr k⟩).results.map mapAcademic)⟩]
  | .x =>
    [⟨.x, ⟨q.query, q.rationale, .x, q.priority⟩,
      .tweets (processTweets
        (a.xSearchStep ⟨q.query, "keyword", 5, "gap-search-" ++ natStr k⟩).results)⟩]
  | .all =>
    [⟨.web, ⟨q.query, q.rationale, .web, q.priority⟩,
      .raw (a.webSearchStep
        ⟨q.query, "tavily", 5, depth,
          "gap-search-web-" ++ intStr (((k + 1 : Nat) : Int) - 3)⟩).results⟩,
     ⟨.academic, ⟨q.query, q.rationale, .academic, q.priority⟩,
      .academicMapped
        ((a.academicSearchStep
          ⟨q.query, 3, "gap-search-academic-" ++ natStr (k + 1)⟩).results.map mapAcademic)⟩,
     ⟨.x, ⟨q.query, q.rationale, .x, q.priority⟩,
      .tweets (processTweets
        (a.xSearchStep ⟨q.query, "keyword", 5, "gap-search-x-" ++ natStr (k + 2)⟩).results)⟩]

/-- The step ids the gap loop passes to adapters for a single gap query
arriving with `searchIndex = k`: the `all` fan-out components carry a
source-type segment, a single-source query carries the bare `gap-search-<k>`. -/
def gapIdsOf (q : SearchQuery) (k : Nat) : List String :=
  match q.source with
  | .all =>
    ["gap-search-web-" ++ intStr (((k + 1 : Nat) : Int) - 3),
     "gap-search-academic-" ++ natStr (k + 1),
     "gap-search-x-" ++ natStr (k + 2)]
  | _ => ["gap-search-" ++ natStr k]

/-- How far one gap query advances the `searchIndex` counter. -/
def gapAdvance (q : SearchQuery) : Nat :=
  if q.source = Source.all then 3 else 1

/-- All entries the gap loop appends for a query list starting at counter `k`. -/
def gapEntriesList (depth : Depth) (a : Adapters) :
    List SearchQuery → Nat → List SearchResultEntry
  | [], _ => []
  | q :: rest, k => gapEntriesOf depth a q k ++ gapEntriesList depth a rest (k + gapAdvance q)

/-- All step ids the gap loop uses for a query list starting at counter `k`. -/
def gapIdsList : List SearchQuery → Nat → List String
  | [], _ => []
  | q :: rest, k => gapIdsOf q k ++ gapIdsList rest (k + gapAdvance q)

/-- Total counter advance of a gap query list. -/
def gapWeightSum (qs : List SearchQuery) : Nat :=
  (qs.map gapAdvance).sum

theorem execInitialStep_spec (depth : Depth) (a : Adapters) (st : SearchState)
    (s : SearchStep) :
    execInitialStep depth a st s =
      ⟨st.searchResults ++ (initialEntry depth a s).toList,
       st.completedSteps + (initialEntry depth a s).toList.length,
       st.searchIndex + 1,
       st.trace ++ [s.id]⟩ := by
  cases h : initialEntry depth a s <;> simp [execInitialStep, h]

theorem initialSearchLoop_spec (depth : Depth) (a : Adapters) :
    ∀ (steps : List SearchStep) (st : SearchState),
      initialSearchLoop depth a steps st =
        ⟨st.searchResults ++ steps.filterMap (initialEntry depth a),
         st.completedSteps + (steps.filterMap (initialEntry depth a)).length,
         st.searchIndex + steps.length,
         st.trace ++ steps.map (fun s => s.id)⟩ := by
  intro steps
  induction steps with
  | nil => intro st; simp [initialSearchLoop]
  | cons s rest ih =>
    intro st
    have hstep : initialSearchLoop depth a (s :: rest) st =
        initialSearchLoop depth a rest (execInitialStep depth a st s) := rfl
    rw [hstep, ih, execInitialStep_spec]
    cases h : initialEntry depth a s <;>
      simp [h, List.filterMap_cons, SearchState.mk.injEq] <;> omega

theorem execGapQuery_spec (depth : Depth) (a : Adapters) (st : SearchState)
    (q : SearchQuery) :
    execGapQuery depth a st q =
      ⟨st.searchResults ++ gapEntriesOf depth a q st.searchIndex,
       st.completedSteps,
       st.searchIndex + gapAdvance q,
       st.trace ++ gapIdsOf q st.searchIndex⟩ := by
  cases h : q.source <;>
    simp [execGapQuery, gapEntriesOf, gapIdsOf, gapAdvance, h]

theorem gapSearchLoop_spec (depth : Depth) (a : Adapters) :
    ∀ (qs : List SearchQuery) (st : SearchState),
      gapSearchLoop depth a qs st =
        ⟨st.searchResults ++ gapEntriesList depth a qs st.searchIndex,
         st.completedSteps,
         st.searchIndex + gapWeightSum qs,
         st.trace ++ gapIdsList qs st.searchIndex⟩ := by
  intro qs
  induction qs with
  | nil => intro st; simp [gapSearchLoop, gapEntriesList, gapIdsList, gapWeightSum]
  | cons q rest ih =>
    intro st
    have hstep : gapSearchLoop depth a (q :: rest) st =
        gapSearchLoop depth a rest (execGapQuery depth a st q) := rfl
    rw [hstep, ih, execGapQuery_spec]
    simp [gapEntriesList, gapIdsList, gapWeightSum, SearchState.mk.injEq]
    omega

theorem gapEntriesOf_length (depth : Depth) (a : Adapters) (q : SearchQuery) (k : Nat) :
    (gapEntriesOf depth a q k).length = gapAdvance q := by
  cases h : q.source <;> simp [gapEntriesOf, gapAdvance, h]

theorem gapEntriesList_length (depth : Depth) (a : Adapters) :
    ∀ (qs : List SearchQuery) (k : Nat),
      (gapEntriesList depth a qs k).length = gapWeightSum qs := by
  intro qs
  induction qs with
  | nil => intro k; simp [gapEntriesList, gapWeightSum]
  | cons q rest ih =>
    intro k
    simp [gapEntriesList, gapWeightSum, gapEntriesOf_length, ih]

/-- The `error` field reported by the adapter that an initial-pass step
invokes. -/
def initialStepError (depth : Depth) (a : Adapters) (step : SearchStep) :
    Option String :=
  match step.type with
  | .web => (a.webSearchStep (webArgsOf depth step)).error
  | .academic => (a.academicSearchStep (academicArgsOf step)).error
  | .x => (a.xSearchStep (xArgsOf step)).error

theorem initialEntry_none_iff (depth : Depth) (a : Adapters) (step : SearchStep) :
    initialEntry depth a step = none ↔ errTruthy (initialStepError depth a step) = true := by
  cases h : step.type <;>
    simp only [initialEntry, initialStepError, h] <;>
    split <;> simp_all

/-- The `totalSteps` value as computed at plan time. -/
def runTotalSteps (plan : ResearchPlan) : Nat :=
  (generateStepIds plan).searchSteps.length + (generateStepIds plan).analysisSteps.length

/-- The search state after the initial search loop. -/
def runInitialState (depth : Depth) (plan : ResearchPlan) (a : Adapters) : SearchState :=
  initialSearchLoop depth a (generateStepIds plan).searchSteps ⟨[], 0, 0, []⟩

/-- The analysis-phase events of a run. -/
def runAnalysisEvents (depth : Depth) (plan : ResearchPlan) (a : Adapters)
    (analysisO : RequiredAnalysis → List SearchResultEntry → AnalysisObject) :
    List ProgressEvent :=
  (generateStepIds plan).analysisSteps.flatMap fun step =>
    analysisEventsOf step (analysisO step.analysis (runInitialState depth plan a).searchResults)

/-- The gap-analysis object of a run. -/
def runGapAnalysis (depth : Depth) (plan : ResearchPlan) (a : Adapters)
    (gapO : List SearchResultEntry → List AnalysisStep → GapAnalysis) : GapAnalysis :=
  gapO (runInitialState depth plan a).searchResults (generateStepIds plan).analysisSteps

/-- The Deepening-Pass trigger condition. -/
def advCond (depth : Depth) (plan : ResearchPlan) (a : Adapters)
    (gapO : List SearchResultEntry → List AnalysisStep → GapAnalysis) : Prop :=
  depth = Depth.advanced ∧ 0 < (runGapAnalysis depth plan a gapO).knowledge_gaps.length

instance advCondDec (depth : Depth) (plan : ResearchPlan) (a : Adapters)
    (gapO : List SearchResultEntry → List AnalysisStep → GapAnalysis) :
    Decidable (advCond depth plan a gapO) := by
  unfold advCond; infer_instance

/-- The gap-driven query list of a run. -/
def runAddQueries (depth : Depth) (plan : ResearchPlan) (a : Adapters)
    (gapO : List SearchResultEntry → List AnalysisStep → GapAnalysis) : List SearchQuery :=
  additionalQueries (runGapAnalysis depth plan a gapO).knowledge_gaps

/-- The search state after the gap loop. -/
def runFinalState (depth : Depth) (plan : ResearchPlan) (a : Adapters)
    (gapO : List SearchResultEntry → List AnalysisStep → GapAnalysis) : SearchState :=
  gapSearchLoop depth a (runAddQueries depth plan a gapO) (runInitialState depth plan a)

/-- The synthesis object of a run. -/
def runSynthesisObj (depth : Depth) (plan : ResearchPlan) (a : Adapters)
    (gapO : List SearchResultEntry → List AnalysisStep → GapAnalysis)
    (synthO : List SearchResultEntry → GapAnalysis → List SearchQuery → Synthesis) : Synthesis :=
  synthO (runFinalState depth plan a gapO).searchResults (runGapAnalysis depth plan a gapO)
    (runAddQueries depth plan a gapO)

theorem runResearch_events (depth : Depth) (plan : ResearchPlan) (a : Adapters)
    (analysisO : RequiredAnalysis → List SearchResultEntry → AnalysisObject)
    (gapO : List SearchResultEntry → List AnalysisStep → GapAnalysis)
    (synthO : List SearchResultEntry → GapAnalysis → List SearchQuery → Synthesis) :
    (runResearch depth plan a analysisO gapO synthO).events =
      planRunningEvent :: planCompletedEvent plan (runTotalSteps plan) ::
        runAnalysisEvents depth plan a analysisO ++
          ([gapRunningEvent,
            gapCompletedEvent depth (runGapAnalysis depth plan a gapO)
              (runInitialState depth plan a).completedSteps (runTotalSteps plan)] ++
            (if advCond depth plan a gapO then
              [synthesisRunningEvent,
               synthesisCompletedEvent depth (runSynthesisObj depth plan a gapO synthO)
                 (runTotalSteps plan),
               finalProgressEvent depth (runTotalSteps plan)]
            else [finalProgressEvent depth (runTotalSteps plan)])) := by
  simp only [runResearch, runTotalSteps, runInitialState, runAnalysisEvents, runGapAnalysis,
    advCond, runAddQueries, runFinalState, runSynthesisObj, initialSearchLoop, gapSearchLoop]
  split <;> simp

theorem runResearch_completedSteps (depth : Depth) (plan : ResearchPlan) (a : Adapters)
    (analysisO : RequiredAnalysis → List SearchResultEntry → AnalysisObject)
    (gapO : List SearchResultEntry → List AnalysisStep → GapAnalysis)
    (synthO : List SearchResultEntry → GapAnalysis → List SearchQuery → Synthesis) :
    (runResearch depth plan a analysisO gapO synthO).completedSteps =
      (runInitialState depth plan a).completedSteps := by
  simp only [runResearch, runInitialState, initialSearchLoop]
  split
  · rw [gapSearchLoop_spec]
  · rfl

theorem runResearch_trace (depth : Depth) (plan : ResearchPlan) (a : Adapters)
    (analysisO : RequiredAnalysis → List SearchResultEntry → AnalysisObject)
    (gapO : List SearchResultEntry → List AnalysisStep → GapAnalysis)
    (synthO : List SearchResultEntry → GapAnalysis → List SearchQuery → Synthesis) :
    (runResearch depth plan a analysisO gapO synthO).trace =
      (if advCond depth plan a gapO then
        (runFinalState depth plan a gapO).trace
      else (runInitialState depth plan a).trace) := by
  simp only [runResearch, runInitialState, runFinalState, runAddQueries, runGapAnalysis,
    advCond, initialSearchLoop, gapSearchLoop]
  split <;> rfl

theorem runResearch_searchResults (depth : Depth) (plan : ResearchPlan) (a : Adapters)
    (analysisO : RequiredAnalysis → List SearchResultEntry → AnalysisObject)
    (gapO : List SearchResultEntry → List AnalysisStep → GapAnalysis)
    (synthO : List SearchResultEntry → GapAnalysis → List SearchQuery → Synthesis) :
    (runResearch depth plan a analysisO gapO synthO).searchResults =
      (if advCond depth plan a gapO then
        (runFinalState depth plan a gapO).searchResults
      else (runInitialState depth plan a).searchResults) := by
  simp only [runResearch, runInitialState, runFinalState, runAddQueries, runGapAnalysis,
    advCond, initialSearchLoop, gapSearchLoop]
  split <;> rfl

theorem runInitialState_spec (depth : Depth) (plan : ResearchPlan) (a : Adapters) :
    runInitialState depth plan a =
      ⟨(generateStepIds plan).searchSteps.filterMap (initialEntry depth a),
       ((generateStepIds plan).searchSteps.filterMap (initialEntry depth a)).length,
       (generateStepIds plan).searchSteps.length,
       (generateStepIds plan).searchSteps.map (fun s => s.id)⟩ := by
  rw [runInitialState, initialSearchLoop_spec]
  simp

/-- Claim C1: for every generated research plan, the `totalSteps` value carried
by the initial plan-completion event (the second event of every run) equals the
number of generated search steps plus the number of planned analyses, where a
plan query with source `all` contributes 3 search steps (one each of web,
academic and x) and every other query contributes exactly 1. -/
theorem plan_completed_totalSteps (depth : Depth) (plan : ResearchPlan) (a : Adapters)
    (analysisO : RequiredAnalysis → List SearchResultEntry → AnalysisObject)
    (gapO : List SearchResultEntry → List AnalysisStep → GapAnalysis)
    (synthO : List SearchResultEntry → GapAnalysis → List SearchQuery → Synthesis) :
    (runResearch depth plan a analysisO gapO synthO).events[1]? =
        some (planCompletedEvent plan (countSearchSteps plan + countAnalysisSteps plan))
      ∧ (planCompletedEvent plan (countSearchSteps plan + countAnalysisSteps plan)).totalSteps =
          some (countSearchSteps plan + countAnalysisSteps plan) := by
  refine ⟨?_, rfl⟩
  rw [runResearch_events]
  simp [runTotalSteps, generateStepIds_searchSteps_length, generateStepIds_analysisSteps_length]

/-- Claim C2: in the initial pass, a step whose adapter reports a (truthy)
error contributes no SearchResult entry and no `completedSteps` increment,
while a step whose adapter succeeds contributes exactly one entry and one
increment (the appended log is exactly the per-step entries of the successful
steps, in order); every step is executed regardless of earlier failures (the
adapter-call trace lists every step's id). -/
theorem initial_pass_error_policy (depth : Depth) (a : Adapters)
    (steps : List SearchStep) (st : SearchState) :
    (initialSearchLoop depth a steps st).searchResults =
        st.searchResults ++ steps.filterMap (initialEntry depth a)
      ∧ (initialSearchLoop depth a steps st).completedSteps =
          st.completedSteps + (steps.filterMap (initialEntry depth a)).length
      ∧ (initialSearchLoop depth a steps st).trace = st.trace ++ steps.map (fun s => s.id)
      ∧ ∀ s : SearchStep,
          (initialEntry depth a s = none ↔ errTruthy (initialStepError depth a s) = true) := by
  rw [initialSearchLoop_spec]
  exact ⟨rfl, rfl, rfl, fun s => initialEntry_none_iff depth a s⟩

theorem strData_append (s t : String) : (s ++ t).data = s.data ++ t.data := rfl

theorem analysisEvents_no_counters (depth : Depth) (plan : ResearchPlan) (a : Adapters)
    (analysisO : RequiredAnalysis → List SearchResultEntry → AnalysisObject)
    (e : ProgressEvent) (he : e ∈ runAnalysisEvents depth plan a analysisO) :
    e.completedSteps = none ∧ e.totalSteps = none := by
  simp only [runAnalysisEvents, List.mem_flatMap, analysisEventsOf] at he
  obtain ⟨step, -, he⟩ := he
  simp only [List.mem_cons, List.mem_singleton] at he
  rcases he with rfl | rfl | h
  · exact ⟨rfl, rfl⟩
  · exact ⟨rfl, rfl⟩
  · simp at h

theorem filterMap_length_le_initial (depth : Depth) (plan : ResearchPlan) (a : Adapters) :
    ((generateStepIds plan).searchSteps.filterMap (initialEntry depth a)).length ≤
      (generateStepIds plan).searchSteps.length :=
  List.length_filterMap_le _ _

/-- Claim C4: at every progress event of a run that reports both counters
(the gap-analysis completed event, the final-synthesis completed event and the
final progress event are the only ones), the reported `completedSteps` is at
most the reported `totalSteps`. -/
theorem progress_counters_le (depth : Depth) (plan : ResearchPlan) (a : Adapters)
    (analysisO : RequiredAnalysis → List SearchResultEntry → AnalysisObject)
    (gapO : List SearchResultEntry → List AnalysisStep → GapAnalysis)
    (synthO : List SearchResultEntry → GapAnalysis → List SearchQuery → Synthesis)
    (e : ProgressEvent) (he : e ∈ (runResearch depth plan a analysisO gapO synthO).events)
    (c t : Nat) (hc : e.completedSteps = some c) (ht : e.totalSteps = some t) :
    c ≤ t := by
  have hcomp : (runInitialState depth plan a).completedSteps ≤
      (generateStepIds plan).searchSteps.length := by
    rw [runInitialState_spec]
    exact filterMap_length_le_initial depth plan a
  have hTS : (generateStepIds plan).searchSteps.length ≤ runTotalSteps plan :=
    Nat.le_add_right _ _
  have hone : (1 : Nat) ≤ (if depth = Depth.advanced then 2 else 1) := by
    split <;> omega
  rw [runResearch_events] at he
  simp only [List.mem_cons, List.mem_append, List.mem_singleton, List.not_mem_nil,
    or_false] at he
  rcases he with (rfl | rfl | he) | (rfl | rfl) | he
  · simp [planRunningEvent] at hc
  · simp [planCompletedEvent] at hc
  · rcases analysisEvents_no_counters depth plan a analysisO e he with ⟨h1, -⟩
    rw [h1] at hc; exact absurd hc (by simp)
  · simp [gapRunningEvent] at hc
  · simp only [gapCompletedEvent, Option.some.injEq] at hc ht
    omega
  · split at he
    · simp only [List.mem_cons, List.mem_singleton, List.not_mem_nil, or_false] at he
      rcases he with rfl | rfl | rfl
      · simp [synthesisRunningEvent] at hc
      · simp only [synthesisCompletedEvent, Option.some.injEq] at hc ht
        omega
      · simp only [finalProgressEvent, Option.some.injEq] at hc ht
        omega
    · simp only [List.mem_cons, List.mem_singleton, List.not_mem_nil, or_false] at he
      subst he
      simp only [finalProgressEvent, Option.some.injEq] at hc ht
      omega

/-- Trivial adapters for concrete evaluations: no error, no results. -/
def trivialAdapters : Adapters :=
  ⟨fun _ => ⟨none, []⟩, fun _ => ⟨none, []⟩, fun _ => ⟨none, []⟩⟩

/-- Adapters that always report a `timeout` error. -/
def timeoutAdapters : Adapters :=
  ⟨fun _ => ⟨some "timeout", []⟩, fun _ => ⟨some "timeout", []⟩, fun _ => ⟨some "timeout", []⟩⟩

def emptyPlan : ResearchPlan := ⟨[], []⟩

def trivialAnalysisO : RequiredAnalysis → List SearchResultEntry → AnalysisObject :=
  fun _ _ => ⟨[], [], []⟩

def trivialGapO : List SearchResultEntry → List AnalysisStep → GapAnalysis :=
  fun _ _ => ⟨[], [], []⟩

def trivialSynthO : List SearchResultEntry → GapAnalysis → List SearchQuery → Synthesis :=
  fun _ _ _ => ⟨[], []⟩

theorem progress_counters_le_witness : (1 : Nat) ≤ 1 :=
  progress_counters_le Depth.basic emptyPlan trivialAdapters trivialAnalysisO trivialGapO
    trivialSynthO (finalProgressEvent Depth.basic 0) (by decide) 1 1 (by decide) (by decide)

/-- Claim C9: the gap-analysis completed event carries, for each limitation, a
finding whose confidence is `(6 - severity) / 5`; a severity of 10 yields
confidence `-0.8`, and any severity strictly greater than 6 yields a strictly
negative confidence. -/
theorem severity_confidence_formula (depth : Depth) (gap : GapAnalysis)
    (completed total : Nat) (l : Limitation) :
    (gapCompletedEvent depth gap completed total).findings =
        some (gap.limitations.map limitationFinding)
      ∧ (limitationFinding l).confidence = (6 - l.severity) / 5
      ∧ (l.severity = 10 → (limitationFinding l).confidence = -0.8)
      ∧ (6 < l.severity → (limitationFinding l).confidence < 0) := by
  refine ⟨rfl, rfl, fun h => ?_, fun h => ?_⟩
  · simp only [limitationFinding, h]
    norm_num
  · simp only [limitationFinding]
    have h5 : (0 : ℚ) < 5 := by norm_num
    rw [div_neg_iff]
    right
    constructor
    · linarith
    · norm_num

theorem severity_confidence_formula_witness :
    (limitationFinding ⟨"coverage", "d", 10, []⟩).confidence = -0.8
      ∧ (limitationFinding ⟨"coverage", "d", 7, []⟩).confidence < 0 := by
  refine ⟨?_, ?_⟩
  · exact (severity_confidence_formula Depth.basic ⟨[], [], []⟩ 0 0
      ⟨"coverage", "d", 10, []⟩).2.2.1 rfl
  · exact (severity_confidence_formula Depth.basic ⟨[], [], []⟩ 0 0
      ⟨"coverage", "d", 7, []⟩).2.2.2 (by norm_num)

theorem analysisStep_id_shape (plan : ResearchPlan) :
    ∀ step ∈ (generateStepIds plan).analysisSteps, ∃ i, step.id = "analysis-" ++ natStr i := by
  intro step hstep
  simp only [generateStepIds, List.mem_map] at hstep
  obtain ⟨p, -, rfl⟩ := hstep
  exact ⟨p.1, by cases p; rfl⟩

theorem analysis_prefixed_ne_gap (i : Nat) : "analysis-" ++ natStr i ≠ "gap-analysis" := by
  intro h
  have hd : ("analysis-".data ++ (natStr i).data) = "gap-analysis".data := by
    rw [← strData_append, h]
  have h0 : ("analysis-".data ++ (natStr i).data)[0]? = "gap-analysis".data[0]? :=
    congrArg (fun l => l[0]?) hd
  rw [List.getElem?_append_left (by decide)] at h0
  exact absurd h0 (by decide)

theorem analysisEvents_id_ne_gap (depth : Depth) (plan : ResearchPlan) (a : Adapters)
    (analysisO : RequiredAnalysis → List SearchResultEntry → AnalysisObject)
    (e : ProgressEvent) (he : e ∈ runAnalysisEvents depth plan a analysisO) :
    e.id ≠ "gap-analysis" := by
  simp only [runAnalysisEvents, List.mem_flatMap, analysisEventsOf] at he
  obtain ⟨step, hstep, he⟩ := he
  obtain ⟨i, hid⟩ := analysisStep_id_shape plan step hstep
  simp only [List.mem_cons, List.mem_singleton, List.not_mem_nil, or_false] at he
  rcases he with rfl | rfl <;> simpa [hid] using analysis_prefixed_ne_gap i

/-- Claim C10: only successful initial search steps increment
`completedSteps`: the run's final counter equals the number of successful
search steps (analysis steps contribute nothing although they are counted in
`totalSteps`), it never exceeds the number of generated search steps, and the
gap-analysis completed event reports exactly that count plus one. -/
theorem only_search_steps_increment (depth : Depth) (plan : ResearchPlan) (a : Adapters)
    (analysisO : RequiredAnalysis → List SearchResultEntry → AnalysisObject)
    (gapO : List SearchResultEntry → List AnalysisStep → GapAnalysis)
    (synthO : List SearchResultEntry → GapAnalysis → List SearchQuery → Synthesis) :
    (runResearch depth plan a analysisO gapO synthO).completedSteps =
        ((generateStepIds plan).searchSteps.filterMap (initialEntry depth a)).length
      ∧ (runResearch depth plan a analysisO gapO synthO).completedSteps ≤
          (generateStepIds plan).searchSteps.length
      ∧ ∀ e ∈ (runResearch depth plan a analysisO gapO synthO).events,
          e.id = "gap-analysis" → e.status = "completed" →
            e.completedSteps =
              some (((generateStepIds plan).searchSteps.filterMap
                (initialEntry depth a)).length + 1) := by
  have hcount : (runResearch depth plan a analysisO gapO synthO).completedSteps =
      ((generateStepIds plan).searchSteps.filterMap (initialEntry depth a)).length := by
    rw [runResearch_completedSteps, runInitialState_spec]
  refine ⟨hcount, ?_, ?_⟩
  · rw [hcount]; exact filterMap_length_le_initial depth plan a
  · intro e he hid hst
    rw [runResearch_events] at he
    simp only [List.mem_cons, List.mem_append, List.mem_singleton, List.not_mem_nil,
      or_false] at he
    rcases he with (rfl | rfl | he) | (rfl | rfl) | he
    · exact absurd hid (by decide)
    · exact absurd hid (by simp [planCompletedEvent])
    · exact absurd hid (analysisEvents_id_ne_gap depth plan a analysisO e he)
    · exact absurd hst (by decide)
    · simp only [gapCompletedEvent, Option.some.injEq]
      rw [runInitialState_spec]
    · split at he
      · simp only [List.mem_cons, List.mem_singleton, List.not_mem_nil, or_false] at he
        rcases he with rfl | rfl | rfl
        · exact absurd hid (by decide)
        · exact absurd hid (by simp [synthesisCompletedEvent])
        · exact absurd hid (by simp [finalProgressEvent])
      · simp only [List.mem_cons, List.not_mem_nil, or_false] at he
        subst he
        exact absurd hid (by simp [finalProgressEvent])

theorem only_search_steps_increment_witness :
    (gapCompletedEvent Depth.basic (trivialGapO [] []) 0 0).completedSteps = some 1 :=
  (only_search_steps_increment Depth.basic emptyPlan trivialAdapters trivialAnalysisO
      trivialGapO trivialSynthO).2.2
    (gapCompletedEvent Depth.basic (trivialGapO [] []) 0 0) (by decide) (by decide) (by decide)

def lowPriorityQuery : SearchQuery := ⟨"q", "r", Source.web, 1⟩

def lowPriorityPlan : ResearchPlan := ⟨[lowPriorityQuery], []⟩

/-- Counterexample to claim C5 as stated: the generation schema bounds
priority by `.min(1).max(5)`, not 2-4, so a plan containing a query with
priority 1 is schema-valid — the schema does not rule out priority 1. -/
theorem schema_allows_priority_one :
    researchPlanSchemaOk lowPriorityPlan
      ∧ lowPriorityQuery ∈ lowPriorityPlan.search_queries
      ∧ lowPriorityQuery.priority = 1 := by
  refine ⟨?_, by simp [lowPriorityPlan], rfl⟩
  refine ⟨by simp [lowPriorityPlan], ?_, by simp [lowPriorityPlan], by simp [lowPriorityPlan]⟩
  intro q hq
  simp only [lowPriorityPlan, List.mem_singleton] at hq
  subst hq
  exact ⟨by norm_num [lowPriorityQuery], by norm_num [lowPriorityQuery]⟩

/-- Claim C5 (amended): the plan-generation schema enforces numeric bounds of
1 to 5 inclusive on each query's priority — so a generated plan can never
contain a query with priority 0 — but priority 1 (and 5) is permitted by the
schema; the 2-4 restriction appears only in the prompt text, which the schema
does not enforce. -/
theorem schema_priority_bounds (p : ResearchPlan) (hp : researchPlanSchemaOk p) :
    ∀ q ∈ p.search_queries, 1 ≤ q.priority ∧ q.priority ≤ 5 ∧ q.priority ≠ 0 := by
  intro q hq
  obtain ⟨-, h, -, -⟩ := hp
  obtain ⟨h1, h2⟩ := h q hq
  refine ⟨h1, h2, fun h0 => ?_⟩
  rw [h0] at h1
  norm_num at h1

theorem schema_priority_bounds_witness :
    1 ≤ lowPriorityQuery.priority ∧ lowPriorityQuery.priority ≤ 5
      ∧ lowPriorityQuery.priority ≠ 0 :=
  schema_priority_bounds lowPriorityPlan
    ⟨by simp [lowPriorityPlan],
     fun q hq => by
       simp only [lowPriorityPlan, List.mem_singleton] at hq
       subst hq
       exact ⟨by norm_num [lowPriorityQuery], by norm_num [lowPriorityQuery]⟩,
     by simp [lowPriorityPlan], by simp [lowPriorityPlan]⟩
    lowPriorityQuery (by simp [lowPriorityPlan])

/-- A gap-analysis oracle returning one knowledge gap with one additional
query. -/
def oneGapO : List SearchResultEntry → List AnalysisStep → GapAnalysis :=
  fun _ _ => ⟨[], [⟨"t", "r", ["q"]⟩], []⟩

/-- Counterexample to claim C3 as stated: in a run whose adapters all report
`error: "timeout"`, the single gap query (fanned out to web, academic and x)
still contributes three SearchResult entries to the evidence sequence — the
Deepening Pass has no error check before its appends, unlike the initial
pass. -/
theorem gap_error_still_appends :
    (timeoutAdapters.webSearchStep
        ⟨"q", "tavily", 5, Depth.advanced, "gap-search-web--2"⟩).error = some "timeout"
      ∧ (timeoutAdapters.academicSearchStep ⟨"q", 3, "gap-search-academic-1"⟩).error =
          some "timeout"
      ∧ (timeoutAdapters.xSearchStep ⟨"q", "keyword", 5, "gap-search-x-2"⟩).error =
          some "timeout"
      ∧ (runResearch Depth.advanced emptyPlan timeoutAdapters trivialAnalysisO oneGapO
          trivialSynthO).searchResults.map (fun e => e.query.query) = ["q", "q", "q"] := by
  decide

/-- Claim C3 (amended): in the Deepening Pass, adapter errors do not suppress
the append: every gap query contributes its SearchResult entries (one for a
single-source query, three for an `all` fan-out) to the evidence sequence
unconditionally — the adapters' error field is never consulted (the appended
list and its length are those of `gapEntriesList`, which is independent of any
error) — and the loop continues through the whole query list. -/
theorem gap_pass_appends_unconditionally (depth : Depth) (a : Adapters)
    (qs : List SearchQuery) (st : SearchState) :
    (gapSearchLoop depth a qs st).searchResults =
        st.searchResults ++ gapEntriesList depth a qs st.searchIndex
      ∧ (gapEntriesList depth a qs st.searchIndex).length = gapWeightSum qs
      ∧ (gapSearchLoop depth a qs st).trace = st.trace ++ gapIdsList qs st.searchIndex := by
  rw [gapSearchLoop_spec]
  exact ⟨rfl, gapEntriesList_length depth a qs st.searchIndex, rfl⟩

def oneWebQuery : SearchQuery := ⟨"w", "r", Source.web, 3⟩

def oneWebPlan : ResearchPlan := ⟨[oneWebQuery], []⟩

/-- Counterexample to claim C8 as stated: in a run whose only search step's
adapter reports `error: "timeout"` (so zero steps actually completed), the
final progress event still reports `completedSteps = 2` equal to
`totalSteps = 2` — it does not report fewer steps completed than planned, and
the failed step is counted as completed there. -/
theorem failed_step_counted_as_completed :
    (timeoutAdapters.webSearchStep
        (webArgsOf Depth.basic ⟨"search-web-0", SearchKind.web, oneWebQuery⟩)).error =
        some "timeout"
      ∧ (runResearch Depth.basic oneWebPlan timeoutAdapters trivialAnalysisO trivialGapO
          trivialSynthO).completedSteps = 0
      ∧ (runResearch Depth.basic oneWebPlan timeoutAdapters trivialAnalysisO trivialGapO
          trivialSynthO).events.getLast? = some (finalProgressEvent Depth.basic 1)
      ∧ (finalProgressEvent Depth.basic 1).completedSteps = some 2
      ∧ (finalProgressEvent Depth.basic 1).totalSteps = some 2 := by
  decide

theorem filterMap_length_lt_of_none {α β : Type} (f : α → Option β) :
    ∀ (l : List α), (∃ x ∈ l, f x = none) → (l.filterMap f).length < l.length := by
  intro l
  induction l with
  | nil => rintro ⟨x, hx, -⟩; simp at hx
  | cons y ys ih =>
    rintro ⟨x, hx, hfx⟩
    simp only [List.mem_cons] at hx
    rcases hx with rfl | hx
    · rw [List.filterMap_cons, hfx]
      have := List.length_filterMap_le f ys
      simp only [List.length_cons]
      omega
    · rw [List.filterMap_cons]
      cases f y
      · have := ih ⟨x, hx, hfx⟩
        simp only [List.length_cons]
        omega
      · have := ih ⟨x, hx, hfx⟩
        simp only [List.length_cons, List.length_cons]
        omega

theorem research_progress_id_unique (depth : Depth) (plan : ResearchPlan) (a : Adapters)
    (analysisO : RequiredAnalysis → List SearchResultEntry → AnalysisObject)
    (e : ProgressEvent) (he : e ∈ runAnalysisEvents depth plan a analysisO) :
    e.id ≠ "research-progress" := by
  simp only [runAnalysisEvents, List.mem_flatMap, analysisEventsOf] at he
  obtain ⟨step, hstep, he⟩ := he
  obtain ⟨i, hid⟩ := analysisStep_id_shape plan step hstep
  have hne : "analysis-" ++ natStr i ≠ "research-progress" := by
    intro h
    have hd : ("analysis-".data ++ (natStr i).data) = "research-progress".data := by
      rw [← strData_append, h]
    have h0 : ("analysis-".data ++ (natStr i).data)[0]? = "research-progress".data[0]? :=
      congrArg (fun l => l[0]?) hd
    rw [List.getElem?_append_left (by decide)] at h0
    exact absurd h0 (by decide)
  simp only [List.mem_cons, List.mem_singleton, List.not_mem_nil, or_false] at he
  rcases he with rfl | rfl <;> simpa [hid] using hne

/-- Claim C8 (amended): when at least one initial search step's adapter
reports an error, the gap-analysis completed event reports strictly fewer
steps completed than its reported total (failed steps are not counted there);
the final progress event however derives `completedSteps` from the planned
total rather than from actual completions and always reports `completedSteps`
equal to `totalSteps`, counting failed steps as completed. -/
theorem failed_step_progress_reporting (depth : Depth) (plan : ResearchPlan) (a : Adapters)
    (analysisO : RequiredAnalysis → List SearchResultEntry → AnalysisObject)
    (gapO : List SearchResultEntry → List AnalysisStep → GapAnalysis)
    (synthO : List SearchResultEntry → GapAnalysis → List SearchQuery → Synthesis)
    (hfail : ∃ s ∈ (generateStepIds plan).searchSteps, initialEntry depth a s = none) :
    (∀ e ∈ (runResearch depth plan a analysisO gapO synthO).events,
        e.id = "gap-analysis" → e.status = "completed" →
          ∀ c t, e.completedSteps = some c → e.totalSteps = some t → c < t)
      ∧ (∀ e ∈ (runResearch depth plan a analysisO gapO synthO).events,
          e.id = "research-progress" →
            ∀ c t, e.completedSteps = some c → e.totalSteps = some t → c = t) := by
  have hlt : ((generateStepIds plan).searchSteps.filterMap (initialEntry depth a)).length <
      (generateStepIds plan).searchSteps.length :=
    filterMap_length_lt_of_none (initialEntry depth a) _ hfail
  have hTS : (generateStepIds plan).searchSteps.length ≤ runTotalSteps plan :=
    Nat.le_add_right _ _
  have hone : (1 : Nat) ≤ (if depth = Depth.advanced then 2 else 1) := by
    split <;> omega
  constructor
  · intro e he hid hst c t hc ht
    rw [runResearch_events] at he
    simp only [List.mem_cons, List.mem_append, List.mem_singleton, List.not_mem_nil,
      or_false] at he
    rcases he with (rfl | rfl | he) | (rfl | rfl) | he
    · simp [planRunningEvent] at hc
    · simp [planCompletedEvent] at hc
    · rcases analysisEvents_no_counters depth plan a analysisO e he with ⟨h1, -⟩
      rw [h1] at hc; exact absurd hc (by simp)
    · simp [gapRunningEvent] at hc
    · simp only [gapCompletedEvent, Option.some.injEq] at hc ht
      have hC : (runInitialState depth plan a).completedSteps =
          ((generateStepIds plan).searchSteps.filterMap (initialEntry depth a)).length := by
        rw [runInitialState_spec]
      omega
    · split at he
      · simp only [List.mem_cons, List.mem_singleton, List.not_mem_nil, or_false] at he
        rcases he with rfl | rfl | rfl
        · simp [synthesisRunningEvent] at hc
        · exact absurd hid (by simp [synthesisCompletedEvent])
        · exact absurd hid (by simp [finalProgressEvent])
      · simp only [List.mem_cons, List.not_mem_nil, or_false] at he
        subst he
        exact absurd hid (by simp [finalProgressEvent])
  · intro e he hid c t hc ht
    rw [runResearch_events] at he
    simp only [List.mem_cons, List.mem_append, List.mem_singleton, List.not_mem_nil,
      or_false] at he
    rcases he with (rfl | rfl | he) | (rfl | rfl) | he
    · exact absurd hid (by decide)
    · exact absurd hid (by simp [planCompletedEvent])
    · exact absurd hid (research_progress_id_unique depth plan a analysisO e he)
    · exact absurd hid (by decide)
    · exact absurd hid (by simp [gapCompletedEvent])
    · split at he
      · simp only [List.mem_cons, List.mem_singleton, List.not_mem_nil, or_false] at he
        rcases he with rfl | rfl | rfl
        · exact absurd hid (by decide)
        · exact absurd hid (by simp [synthesisCompletedEvent])
        · simp only [finalProgressEvent, Option.some.injEq] at hc ht
          omega
      · simp only [List.mem_cons, List.not_mem_nil, or_false] at he
        subst he
        simp only [finalProgressEvent, Option.some.injEq] at hc ht
        omega

theorem failed_step_progress_reporting_witness : (1 : Nat) < 2 :=
  (failed_step_progress_reporting Depth.basic oneWebPlan timeoutAdapters trivialAnalysisO
      trivialGapO trivialSynthO
      ⟨⟨"search-web-0", SearchKind.web, oneWebQuery⟩, by decide, by decide⟩).1
    (gapCompletedEvent Depth.basic (trivialGapO [] []) 0 1) (by decide) (by decide) (by decide)
    1 2 (by decide) (by decide)

theorem gapQuerySource_rotation (idx : Nat) (h : idx ≠ 0) :
    gapQuerySource idx = [Source.web, Source.academic, Source.x].getD (idx % 3) Source.web := by
  have hlt : idx % (sourceTypes.length - 1) < sourceTypes.length :=
    Nat.lt_of_lt_of_le (Nat.mod_lt _ (by decide)) (by decide)
  have h3 : idx % 3 = 0 ∨ idx % 3 = 1 ∨ idx % 3 = 2 := by omega
  unfold gapQuerySource
  rw [if_neg h, ← List.getD_eq_get sourceTypes Source.web hlt]
  show sourceTypes.getD (idx % 3) Source.web = _
  rcases h3 with h' | h' | h' <;> rw [h'] <;> rfl

/-- Claim C7: in the Deepening Pass, the first additional query of each
knowledge gap targets source `all` (fanning out to one web, one academic and
one x search), and each subsequent query at position `idx` targets the single
source at position `idx % 3` of the rotation `[web, academic, x]`;
consequently, with 2 knowledge gaps of 3 additional queries each, exactly 10
additional SearchResult entries are appended (the appends are unconditional,
so in particular this is the count when no query fails). -/
theorem gap_source_distribution :
    gapQuerySource 0 = Source.all
      ∧ (∀ idx : Nat, idx ≠ 0 →
          gapQuerySource idx =
            [Source.web, Source.academic, Source.x].getD (idx % 3) Source.web)
      ∧ (∀ (depth : Depth) (a : Adapters) (st : SearchState) (g1 g2 : KnowledgeGap),
          g1.additional_queries.length = 3 → g2.additional_queries.length = 3 →
            (gapSearchLoop depth a (additionalQueries [g1, g2]) st).searchResults.length =
              st.searchResults.length + 10) := by
  refine ⟨rfl, gapQuerySource_rotation, ?_⟩
  intro depth a st g1 g2 h1 h2
  obtain ⟨t1, r1, qs1⟩ := g1
  obtain ⟨t2, r2, qs2⟩ := g2
  simp only at h1 h2
  obtain ⟨a1, b1, c1, rfl⟩ := List.length_eq_three.mp h1
  obtain ⟨a2, b2, c2, rfl⟩ := List.length_eq_three.mp h2
  rw [gapSearchLoop_spec]
  simp only [List.length_append, gapEntriesList_length]
  rfl

theorem gap_source_distribution_witness :
    gapQuerySource 1 = [Source.web, Source.academic, Source.x].getD (1 % 3) Source.web
      ∧ (gapSearchLoop Depth.advanced trivialAdapters
          (additionalQueries
            [⟨"t", "r", ["q1", "q2", "q3"]⟩, ⟨"u", "s", ["q4", "q5", "q6"]⟩])
          ⟨[], 0, 0, []⟩).searchResults.length =
          ([] : List SearchResultEntry).length + 10 :=
  ⟨gap_source_distribution.2.1 1 (by decide),
   gap_source_distribution.2.2 Depth.advanced trivialAdapters ⟨[], 0, 0, []⟩
     ⟨"t", "r", ["q1", "q2", "q3"]⟩ ⟨"u", "s", ["q4", "q5", "q6"]⟩ rfl rfl⟩

theorem natDigsAux_eq : ∀ (fuel n : Nat), n ≤ fuel →
    natDigsAux fuel n = ((Nat.digits 10 n).map Nat.digitChar).reverse := by
  intro fuel
  induction fuel with
  | zero =>
    intro n hn
    interval_cases n
    simp [natDigsAux]
  | succ f ih =>
    intro n hn
    cases n with
    | zero => simp [natDigsAux]
    | succ m =>
      rw [natDigsAux, Nat.digits_def' (by norm_num : (1 : Nat) < 10) (Nat.succ_pos m)]
      rw [List.map_cons, List.reverse_cons]
      rw [ih ((m + 1) / 10) (by omega)]

theorem natStr_data (n : Nat) :
    (natStr n).data =
      if n = 0 then ['0'] else ((Nat.digits 10 n).map Nat.digitChar).reverse := by
  unfold natStr
  split
  · rfl
  · rw [natDigsAux_eq n n le_rfl]

theorem digitChar_isDigit (d : Nat) (h : d < 10) : (Nat.digitChar d).isDigit = true := by
  interval_cases d <;> decide

theorem digitChar_inj (d e : Nat) (hd : d < 10) (he : e < 10)
    (h : Nat.digitChar d = Nat.digitChar e) : d = e := by
  interval_cases d <;> interval_cases e <;> revert h <;> decide

theorem mapDigitChar_inj : ∀ (l1 l2 : List Nat), (∀ d ∈ l1, d < 10) → (∀ d ∈ l2, d < 10) →
    l1.map Nat.digitChar = l2.map Nat.digitChar → l1 = l2 := by
  intro l1
  induction l1 with
  | nil => intro l2 _ _ h; cases l2 <;> simp_all
  | cons d t ih =>
    intro l2 h1 h2 h
    cases l2 with
    | nil => simp at h
    | cons e t' =>
      simp only [List.map_cons, List.cons.injEq] at h
      have hd : d = e :=
        digitChar_inj d e (h1 d (by simp)) (h2 e (by simp)) h.1
      have ht : t = t' :=
        ih t' (fun x hx => h1 x (by simp [hx])) (fun x hx => h2 x (by simp [hx])) h.2
      rw [hd, ht]

theorem digits_map_ne_singleton_zero (n : Nat) (hn : n ≠ 0)
    (h' : (Nat.digits 10 n).map Nat.digitChar = ['0']) : False := by
  obtain ⟨d, hd1, hd2⟩ : ∃ d, Nat.digits 10 n = [d] ∧ Nat.digitChar d = '0' := by
    cases hdig : Nat.digits 10 n with
    | nil => rw [hdig] at h'; simp at h'
    | cons d t =>
      rw [hdig] at h'
      cases t with
      | nil =>
        simp only [List.map_cons, List.map_nil, List.cons.injEq] at h'
        exact ⟨d, rfl, h'.1⟩
      | cons e t' => simp at h'
  have hdlt : d < 10 :=
    Nat.digits_lt_base (by norm_num) (by rw [hd1]; simp)
  have hd0 : d = 0 := digitChar_inj d 0 hdlt (by norm_num) (by rw [hd2]; rfl)
  have hne : Nat.digits 10 n ≠ [] := Nat.digits_ne_nil_iff_ne_zero.mpr hn
  have hlast := Nat.getLast_digit_ne_zero 10 hn
  have hgl : (Nat.digits 10 n).getLast hne = d := by
    have h2 : (Nat.digits 10 n).getLast? = some d := by rw [hd1]; rfl
    rw [List.getLast?_eq_getLast _ hne] at h2
    exact Option.some.inj h2
  exact hlast (by rw [hgl, hd0])

theorem natStr_data_inj (m n : Nat) (h : (natStr m).data = (natStr n).data) : m = n := by
  rw [natStr_data, natStr_data] at h
  by_cases hm : m = 0 <;> by_cases hn : n = 0
  · omega
  · rw [if_pos hm, if_neg hn] at h
    exact absurd (by simpa using (congrArg List.reverse h).symm)
      (fun h' => (digits_map_ne_singleton_zero n hn h').elim)
  · rw [if_neg hm, if_pos hn] at h
    exact absurd (by simpa using congrArg List.reverse h)
      (fun h' => (digits_map_ne_singleton_zero m hm h').elim)
  · rw [if_neg hm, if_neg hn] at h
    have h1 : (Nat.digits 10 m).map Nat.digitChar = (Nat.digits 10 n).map Nat.digitChar :=
      List.reverse_injective h
    have h2 : Nat.digits 10 m = Nat.digits 10 n :=
      mapDigitChar_inj _ _ (fun d hd => Nat.digits_lt_base (by norm_num) hd)
        (fun d hd => Nat.digits_lt_base (by norm_num) hd) h1
    have := congrArg (Nat.ofDigits 10) h2
    rwa [Nat.ofDigits_digits, Nat.ofDigits_digits] at this

theorem natStr_data_ne_nil (n : Nat) : (natStr n).data ≠ [] := by
  rw [natStr_data]
  split
  · simp
  · simp [Nat.digits_ne_nil_iff_ne_zero]
    intro hc
    simp_all

theorem natStr_mem_isDigit (n : Nat) : ∀ c ∈ (natStr n).data, c.isDigit = true := by
  rw [natStr_data]
  split
  · intro c hc; simp at hc; rw [hc]; rfl
  · intro c hc
    rw [List.mem_reverse, List.mem_map] at hc
    obtain ⟨d, hd, rfl⟩ := hc
    exact digitChar_isDigit d (Nat.digits_lt_base (by norm_num) hd)

theorem natStr_head_digit (n : Nat) :
    ∃ c rest, (natStr n).data = c :: rest ∧ c.isDigit = true := by
  cases h : (natStr n).data with
  | nil => exact absurd h (natStr_data_ne_nil n)
  | cons c rest =>
    exact ⟨c, rest, rfl, natStr_mem_isDigit n c (by rw [h]; simp)⟩

theorem intStr_data (i : Int) :
    (intStr i).data =
      if i < 0 then '-' :: (natStr i.natAbs).data else (natStr i.natAbs).data := by
  unfold intStr
  split <;> rfl

theorem intStr_head (i : Int) :
    ∃ c rest, (intStr i).data = c :: rest ∧ (c.isDigit = true ∨ c = '-') := by
  rw [intStr_data]
  split
  · exact ⟨'-', _, rfl, Or.inr rfl⟩
  · obtain ⟨c, rest, hc, hd⟩ := natStr_head_digit i.natAbs
    exact ⟨c, rest, hc, Or.inl hd⟩

theorem intStr_data_inj (i j : Int) (h : (intStr i).data = (intStr j).data) : i = j := by
  rw [intStr_data, intStr_data] at h
  by_cases hi : i < 0 <;> by_cases hj : j < 0
  · rw [if_pos hi, if_pos hj] at h
    simp only [List.cons.injEq, true_and] at h
    have := natStr_data_inj _ _ h
    omega
  · rw [if_pos hi, if_neg hj] at h
    obtain ⟨c, rest, hc, hd⟩ := natStr_head_digit j.natAbs
    rw [hc] at h
    simp only [List.cons.injEq] at h
    rw [← h.1] at hd
    simp at hd
  · rw [if_neg hi, if_pos hj] at h
    obtain ⟨c, rest, hc, hd⟩ := natStr_head_digit i.natAbs
    rw [hc] at h
    simp only [List.cons.injEq] at h
    rw [h.1] at hd
    simp at hd
  · rw [if_neg hi, if_neg hj] at h
    have := natStr_data_inj _ _ h
    omega

/-- The abstract identity of a step of one research run: initial-batch search
steps (web/academic/x at a plan-query index), analysis steps, and gap-batch
steps (the bare `gap-search-<i>` of a single-source gap query, or the three
fan-out components of an `all` gap query). -/
inductive StepKey where
  | sWeb (i : Nat)
  | sAcad (i : Nat)
  | sX (i : Nat)
  | anl (i : Nat)
  | gPlain (i : Nat)
  | gWeb (i : Int)
  | gAcad (i : Nat)
  | gX (i : Nat)
deriving DecidableEq

/-- The string identifier of a step key, exactly as the source's template
literals render it. -/
def keyStr : StepKey → String
  | .sWeb i => "search-web-" ++ natStr i
  | .sAcad i => "search-academic-" ++ natStr i
  | .sX i => "search-x-" ++ natStr i
  | .anl i => "analysis-" ++ natStr i
  | .gPlain i => "gap-search-" ++ natStr i
  | .gWeb i => "gap-search-web-" ++ intStr i
  | .gAcad i => "gap-search-academic-" ++ natStr i
  | .gX i => "gap-search-x-" ++ natStr i

theorem lit_clash {p q : String} {l m : List Char} (n : Nat)
    (hp : n < p.data.length) (hq : n < q.data.length)
    (hne : ¬ p.data[n]? = q.data[n]?) :
    ¬ p.data ++ l = q.data ++ m := by
  intro h
  apply hne
  have h' := congrArg (fun xs => xs[n]?) h
  simp only at h'
  rwa [List.getElem?_append_left hp, List.getElem?_append_left hq] at h'

theorem gplain_nat_clash {q : String} (i : Nat) {m : List Char}
    (hq : 11 < q.data.length)
    (hqc : ∀ c, q.data[11]? = some c → c.isDigit = false) :
    ¬ "gap-search-".data ++ (natStr i).data = q.data ++ m := by
  intro h
  obtain ⟨c, rest, hc, hd⟩ := natStr_head_digit i
  have h' := congrArg (fun xs => xs[11]?) h
  simp only at h'
  rw [List.getElem?_append_right (by decide : "gap-search-".data.length ≤ 11),
    List.getElem?_append_left hq] at h'
  have h11 : (natStr i).data[11 - "gap-search-".data.length]? = some c := by
    rw [hc, show 11 - "gap-search-".data.length = 0 from by decide]
    simp
  rw [h11] at h'
  have := hqc c h'.symm
  rw [hd] at this
  exact Bool.noConfusion this

theorem keyStr_inj : Function.Injective keyStr := by
  intro k1 k2 h
  have hd := congrArg String.data h
  cases k1 <;> cases k2 <;> simp only [keyStr, strData_append] at hd <;>
    first
    | (exact congrArg _ (natStr_data_inj _ _ (List.append_cancel_left hd)))
    | (exact congrArg _ (intStr_data_inj _ _ (List.append_cancel_left hd)))
    | (exact absurd hd (lit_clash 0 (by decide) (by decide) (by decide)))
    | (exact absurd hd (lit_clash 7 (by decide) (by decide) (by decide)))
    | (exact absurd hd (lit_clash 11 (by decide) (by decide) (by decide)))
    | (exact absurd hd (gplain_nat_clash _ (by decide) (by decide)))
    | (exact absurd hd.symm (gplain_nat_clash _ (by decide) (by decide)))

/-- The step keys of one initial-batch plan query. -/
def searchKeysOfSrc (src : Source) (i : Nat) : List StepKey :=
  match src with
  | .all => [.sWeb i, .sAcad i, .sX i]
  | .x => [.sX i]
  | .academic => [.sAcad i]
  | .web => [.sWeb i]

/-- The step keys of the initial search batch, indexed from `i`. -/
def searchKeys : List Source → Nat → List StepKey
  | [], _ => []
  | s :: rest, i => searchKeysOfSrc s i ++ searchKeys rest (i + 1)

/-- The step keys of the analysis batch: `cnt` keys indexed from `n`. -/
def anlKeys : Nat → Nat → List StepKey
  | _, 0 => []
  | n, c + 1 => .anl n :: anlKeys (n + 1) c

/-- The step keys of one gap query arriving at counter value `k`. -/
def gapKeysOfSrc (src : Source) (k : Nat) : List StepKey :=
  match src with
  | .all => [.gWeb (((k + 1 : Nat) : Int) - 3), .gAcad (k + 1), .gX (k + 2)]
  | _ => [.gPlain k]

/-- The step keys of the gap batch, with the counter starting at `k`. -/
def gapKeys : List SearchQuery → Nat → List StepKey
  | [], _ => []
  | q :: rest, k => gapKeysOfSrc q.source k ++ gapKeys rest (k + gapAdvance q)

/-- Lower bounds satisfied by every key of an initial search batch starting at
index `i` (and refuted for every non-search key). -/
def sBound (i : Nat) : StepKey → Prop
  | .sWeb j => i ≤ j
  | .sAcad j => i ≤ j
  | .sX j => i ≤ j
  | _ => False

/-- Lower bounds satisfied by every key of a gap batch starting at counter `k`
(and refuted for every non-gap key). -/
def gBound (k : Nat) : StepKey → Prop
  | .gPlain i => k ≤ i
  | .gWeb i => (k : Int) - 2 ≤ i
  | .gAcad i => k + 1 ≤ i
  | .gX i => k + 2 ≤ i
  | _ => False

/-- Lower bound satisfied by every key of an analysis batch starting at `n`. -/
def aBound (n : Nat) : StepKey → Prop
  | .anl j => n ≤ j
  | _ => False

def keyGroup : StepKey → Nat
  | .sWeb _ => 0
  | .sAcad _ => 0
  | .sX _ => 0
  | .anl _ => 1
  | .gPlain _ => 2
  | .gWeb _ => 2
  | .gAcad _ => 2
  | .gX _ => 2

theorem sBound_mono {i i' : Nat} (h : i ≤ i') : ∀ key, sBound i' key → sBound i key := by
  intro key
  cases key <;> simp only [sBound] <;> first | omega | exact id

theorem gBound_mono {k k' : Nat} (h : k ≤ k') : ∀ key, gBound k' key → gBound k key := by
  intro key
  cases key <;> simp only [gBound] <;> first | omega | exact id

theorem aBound_mono {n n' : Nat} (h : n ≤ n') : ∀ key, aBound n' key → aBound n key := by
  intro key
  cases key <;> simp only [aBound] <;> first | omega | exact id

theorem searchKeys_bound : ∀ (srcs : List Source) (i : Nat) (key : StepKey),
    key ∈ searchKeys srcs i → sBound i key := by
  intro srcs
  induction srcs with
  | nil => intro i key h; simp [searchKeys] at h
  | cons s rest ih =>
    intro i key h
    rw [searchKeys] at h
    rcases List.mem_append.mp h with h | h
    · cases s <;> simp [searchKeysOfSrc] at h <;>
        first
        | (subst h; simp [sBound])
        | (rcases h with rfl | rfl | rfl <;> simp [sBound])
    · exact sBound_mono (Nat.le_succ i) key (ih (i + 1) key h)

theorem anlKeys_bound : ∀ (c n : Nat) (key : StepKey),
    key ∈ anlKeys n c → aBound n key := by
  intro c
  induction c with
  | zero => intro n key h; simp [anlKeys] at h
  | succ c ih =>
    intro n key h
    rw [anlKeys] at h
    rcases List.mem_cons.mp h with rfl | h
    · simp [aBound]
    · exact aBound_mono (Nat.le_succ n) key (ih (n + 1) key h)

theorem gapKeys_bound : ∀ (qs : List SearchQuery) (k : Nat) (key : StepKey),
    key ∈ gapKeys qs k → gBound k key := by
  intro qs
  induction qs with
  | nil => intro k key h; simp [gapKeys] at h
  | cons q rest ih =>
    intro k key h
    rw [gapKeys] at h
    rcases List.mem_append.mp h with h | h
    · cases hs : q.source <;> rw [hs] at h <;> simp [gapKeysOfSrc] at h
      · subst h; simp [gBound]
      · subst h; simp [gBound]
      · subst h; simp [gBound]
      · rcases h with rfl | rfl | rfl <;> simp [gBound] <;> push_cast <;> omega
    · exact gBound_mono (Nat.le_add_right k _) key (ih (k + gapAdvance q) key h)

theorem searchKeys_nodup : ∀ (srcs : List Source) (i : Nat), (searchKeys srcs i).Nodup := by
  intro srcs
  induction srcs with
  | nil => intro i; simp [searchKeys]
  | cons s rest ih =>
    intro i
    rw [searchKeys, List.nodup_append]
    refine ⟨?_, ih (i + 1), ?_⟩
    · cases s <;> simp [searchKeysOfSrc]
    · intro key h1 h2
      have hb := searchKeys_bound rest (i + 1) key h2
      cases s <;> simp [searchKeysOfSrc] at h1 <;>
        first
        | (subst h1; simp [sBound] at hb; omega)
        | (rcases h1 with rfl | rfl | rfl <;> simp [sBound] at hb <;> omega)

theorem anlKeys_nodup : ∀ (c n : Nat), (anlKeys n c).Nodup := by
  intro c
  induction c with
  | zero => intro n; simp [anlKeys]
  | succ c ih =>
    intro n
    rw [anlKeys, List.nodup_cons]
    refine ⟨?_, ih (n + 1)⟩
    intro h
    have hb := anlKeys_bound c (n + 1) _ h
    simp [aBound] at hb

theorem gapKeys_nodup : ∀ (qs : List SearchQuery) (k : Nat), (gapKeys qs k).Nodup := by
  intro qs
  induction qs with
  | nil => intro k; simp [gapKeys]
  | cons q rest ih =>
    intro k
    rw [gapKeys, List.nodup_append]
    refine ⟨?_, ih _, ?_⟩
    · cases hs : q.source <;> simp [gapKeysOfSrc]
    · intro key h1 h2
      have hb := gapKeys_bound rest (k + gapAdvance q) key h2
      cases hs : q.source <;> rw [hs] at h1 <;>
        simp only [gapAdvance, hs] at hb <;> simp [gapKeysOfSrc] at h1
      · subst h1; simp [gBound] at hb
      · subst h1; simp [gBound] at hb
      · subst h1; simp [gBound] at hb
      · rcases h1 with rfl | rfl | rfl <;> simp [gBound] at hb <;> push_cast at hb <;> omega

theorem searchKeys_group {srcs : List Source} {i : Nat} {key : StepKey}
    (h : key ∈ searchKeys srcs i) : keyGroup key = 0 := by
  have := searchKeys_bound srcs i key h
  cases key <;> simp [sBound] at this <;> rfl

theorem anlKeys_group {c n : Nat} {key : StepKey}
    (h : key ∈ anlKeys n c) : keyGroup key = 1 := by
  have := anlKeys_bound c n key h
  cases key <;> simp [aBound] at this <;> rfl

theorem gapKeys_group {qs : List SearchQuery} {k : Nat} {key : StepKey}
    (h : key ∈ gapKeys qs k) : keyGroup key = 2 := by
  have := gapKeys_bound qs k key h
  cases key <;> simp [gBound] at this <;> rfl

theorem allKeys_nodup (srcs : List Source) (cnt : Nat) (qs : List SearchQuery) (k : Nat) :
    (searchKeys srcs 0 ++ (anlKeys 0 cnt ++ gapKeys qs k)).Nodup := by
  rw [List.nodup_append]
  refine ⟨searchKeys_nodup srcs 0, ?_, ?_⟩
  · rw [List.nodup_append]
    refine ⟨anlKeys_nodup cnt 0, gapKeys_nodup qs k, ?_⟩
    intro key h1 h2
    have g1 := anlKeys_group h1
    have g2 := gapKeys_group h2
    omega
  · intro key h1 h2
    have g1 := searchKeys_group h1
    rcases List.mem_append.mp h2 with h2 | h2
    · have g2 := anlKeys_group h2
      omega
    · have g2 := gapKeys_group h2
      omega

theorem searchSteps_ids_eq : ∀ (qs : List SearchQuery) (n : Nat),
    ((qs.enumFrom n).flatMap searchStepsOfQuery).map (fun s => s.id) =
      (searchKeys (qs.map (fun q => q.source)) n).map keyStr := by
  intro qs
  induction qs with
  | nil => intro n; simp [searchKeys]
  | cons q rest ih =>
    intro n
    cases hs : q.source <;>
      simp [List.enumFrom, searchKeys, searchStepsOfQuery, searchKeysOfSrc, keyStr, hs, ih]

theorem analysisSteps_ids_eq : ∀ (as : List RequiredAnalysis) (n : Nat),
    ((as.enumFrom n).map analysisStepOfEnum).map (fun s => s.id) =
      (anlKeys n as.length).map keyStr := by
  intro as
  induction as with
  | nil => intro n; simp [anlKeys]
  | cons x rest ih =>
    intro n
    simp [List.enumFrom, anlKeys, analysisStepOfEnum, keyStr, ih]

theorem gapIdsList_eq : ∀ (qs : List SearchQuery) (k : Nat),
    gapIdsList qs k = (gapKeys qs k).map keyStr := by
  intro qs
  induction qs with
  | nil => intro k; simp [gapIdsList, gapKeys]
  | cons q rest ih =>
    intro k
    rw [gapIdsList, gapKeys, List.map_append, ← ih]
    congr 1
    cases hs : q.source <;> simp [gapIdsOf, gapKeysOfSrc, keyStr, hs]

/-- A gap-analysis oracle returning one knowledge gap with two additional
queries (so the second query is a single-source, round-robin one). -/
def twoGapO : List SearchResultEntry → List AnalysisStep → GapAnalysis :=
  fun _ _ => ⟨[], [⟨"t", "r", ["q1", "q2"]⟩], []⟩

/-- Counterexample to claim C6 as stated: the Deepening Pass of a concrete
advanced run passes the identifier `gap-search-3` to an adapter (for the
second, single-source gap query), and that identifier is not of the form
`gap-search-<sourcetype>-<i>` for any source type and index. -/
theorem gap_id_without_sourcetype :
    "gap-search-3" ∈ (runResearch Depth.advanced emptyPlan trivialAdapters trivialAnalysisO
        twoGapO trivialSynthO).trace
      ∧ ¬ ∃ i : Int,
          ("gap-search-3" = "gap-search-web-" ++ intStr i
            ∨ "gap-search-3" = "gap-search-academic-" ++ intStr i
            ∨ "gap-search-3" = "gap-search-x-" ++ intStr i) := by
  constructor
  · decide
  · rintro ⟨i, hor⟩
    rcases hor with h | h | h <;>
      (have hd := congrArg String.data h;
       rw [strData_append] at hd;
       have h11 := congrArg (fun l => l[11]?) hd;
       simp only at h11;
       rw [List.getElem?_append_left (by decide)] at h11;
       exact absurd h11 (by decide))

/-- Claim C6 (amended): the step identifiers of the Deepening Pass draw their
indices from the `searchIndex` counter continuing past the initial batch: the
adapter-call trace of an advanced run is the initial batch's step ids followed
by the gap ids generated from counter value `searchSteps.length`; the three
fan-out components of an `all`-sourced gap query carry
`gap-search-web-<i>` / `gap-search-academic-<i>` / `gap-search-x-<i>`, while a
single-source gap query carries the bare `gap-search-<i>` without a
source-type segment (the shape of `gapIdsList`); and no two steps of the run —
initial search steps, analysis steps, or gap steps — share an identifier. -/
theorem gap_step_identifiers (depth : Depth) (plan : ResearchPlan) (a : Adapters)
    (analysisO : RequiredAnalysis → List SearchResultEntry → AnalysisObject)
    (gapO : List SearchResultEntry → List AnalysisStep → GapAnalysis)
    (synthO : List SearchResultEntry → GapAnalysis → List SearchQuery → Synthesis) :
    (runResearch depth plan a analysisO gapO synthO).trace =
        (generateStepIds plan).searchSteps.map (fun s => s.id) ++
          (if advCond depth plan a gapO then
            gapIdsList (runAddQueries depth plan a gapO)
              (generateStepIds plan).searchSteps.length
          else [])
      ∧ ((generateStepIds plan).searchSteps.map (fun s => s.id) ++
          ((generateStepIds plan).analysisSteps.map (fun s => s.id) ++
            gapIdsList (runAddQueries depth plan a gapO)
              (generateStepIds plan).searchSteps.length)).Nodup := by
  constructor
  · rw [runResearch_trace]
    split
    · rw [runFinalState, gapSearchLoop_spec, runInitialState_spec]
    · simp [runInitialState_spec]
  · have h1 : (generateStepIds plan).searchSteps.map (fun s => s.id) =
        (searchKeys (plan.search_queries.map (fun q => q.source)) 0).map keyStr := by
      simpa [generateStepIds, List.enum] using
        searchSteps_ids_eq plan.search_queries 0
    have h2 : (generateStepIds plan).analysisSteps.map (fun s => s.id) =
        (anlKeys 0 plan.required_analyses.length).map keyStr := by
      simpa [generateStepIds, List.enum] using
        analysisSteps_ids_eq plan.required_analyses 0
    rw [h1, h2, gapIdsList_eq, ← List.map_append, ← List.map_append]
    exact (allKeys_nodup _ _ _ _).map keyStr_inj

end ReasonSearch
